import Mathlib

/-!
Verification of the FreeCAD LLM agent core: a shallow embedding of
`freecad_llm_agent/pipeline.py` (the iteration controller) and
`freecad_llm_agent/freecad_runner.py` (the execution engine), with theorems
about the controller loop, the feedback protocol and the engine strategies.

External collaborators (the LLM client, the renderer, the subprocess and the
embedded Python interpreter) are modelled as oracle functions supplied as
parameters, exactly at the call boundaries the Python code uses them.
-/

namespace FreecadAgent

/-! ## Definitions: data model, engine, controller, invariants, witnesses -/

/-- Boolean test that the pattern list occurs at the start of the list
(Python `str.startswith` on character lists). -/
def listIsPre : List Char → List Char → Bool
  | [], _ => true
  | _ :: _, [] => false
  | a :: p, b :: l => a == b && listIsPre p l

/-- Boolean test that the pattern list occurs contiguously somewhere in the
list. -/
def listIsInfix (p : List Char) : List Char → Bool
  | [] => listIsPre p []
  | b :: l => listIsPre p (b :: l) || listIsInfix p l

/-- Python `pat in s` substring containment on strings. -/
def strContains (s pat : String) : Bool :=
  listIsInfix pat.data s.data

/-- Python `sep.join(xs)`. -/
def pyJoin (sep : String) : List String → String
  | [] => ""
  | [x] => x
  | x :: y :: rest => x ++ sep ++ pyJoin sep (y :: rest)

/-- Segments of a character list split at newline characters; the list of
segments is never empty. -/
def splitOnNl : List Char → List (List Char)
  | [] => [[]]
  | c :: cs =>
    match splitOnNl cs with
    | [] => [[]]
    | h :: t => if c = Char.ofNat 10 then [] :: h :: t else (c :: h) :: t

/-- Python `str.splitlines()` restricted to `\n` separators (the only
separator produced by the modelled code paths): no trailing empty line for a
trailing newline, and the empty string yields no lines. -/
def pySplitlines (s : String) : List String :=
  if s.data.isEmpty then []
  else
    let parts := splitOnNl s.data
    (if parts.getLastD [Char.ofNat 10] = ([] : List Char)
     then parts.dropLast else parts).map (fun l => ⟨l⟩)

/-- Python `str.lower()` restricted to ASCII letters (the keywords the
pipeline matches are already lower-case). -/
def pyLower (s : String) : String :=
  ⟨s.data.map Char.toLower⟩

/-- Python `bool` rendering used by f-string interpolation of a boolean. -/
def pyBool (b : Bool) : String := if b then "True" else "False"

/-- Truthiness of an optional string, as Python `if x:` sees it: present and
non-empty. -/
def optTruthy : Option String → Bool
  | none => false
  | some s => !(s == "")

/-- Last component of a slash-separated path (Python `Path.name` for the
paths built by the engine). -/
def pathName (p : String) : String :=
  (p.splitOn "/").getLastD p

/-- Outcome of one FreeCAD macro execution (`ScriptExecutionResult` in
freecad_runner.py). Paths are modelled as strings. -/
structure ScriptExecutionResult where
  success : Bool
  script_path : String
  output_log : List String
  error : Option String
  affected_objects : List String
  deriving Repr, DecidableEq

/-- Filesystem model: path to file contents, `none` means the file does not
exist. -/
def FS : Type := String → Option String

/-- Overwriting write of one file (Python `Path.write_text`). -/
def fsWrite (fs : FS) (p c : String) : FS :=
  fun q => if q = p then some c else fs q

/-- Outcome of `exec(compile(script_body, ...), namespace)` inside the
embedded runtime: either normal completion with the redirected
stdout/stderr buffer and the affected-object diff, or an exception with the
buffer, the formatted traceback lines and the exception message. -/
inductive PyExecOutcome where
  | ok (buffer : String) (affected : List String)
  | exn (buffer : String) (tracebackLines : List String) (message : String) (affected : List String)

/-- Outcome of the `subprocess.run` call in `_run_with_freecad`: normal
completion carries the exit code, captured stdout/stderr and the content the
child wrote to the log file (if any); the other two constructors are the
`TimeoutExpired` and `FileNotFoundError` exceptions. -/
inductive ProcResult where
  | completed (returncode : Int) (stdout stderr : String) (logWrite : Option String)
  | timeout
  | fileNotFound

/-- Engine state: workspace directory, cached executable reference, optional
embedded runtime (as an oracle for `exec`), and the subprocess oracle taking
the executable, log path and script path. -/
structure Engine where
  workspace : String
  executable : Option String
  embedded : Option (String → String → PyExecOutcome)
  proc : String → String → String → ProcResult

/-- Deterministic per-iteration script path used by `run_script`. -/
def scriptPathOf (workspace : String) (iteration : Nat) : String :=
  workspace ++ "/iteration_" ++ toString iteration ++ ".py"

/-- Models `Path.with_suffix(".log")` for the script paths the engine
builds, which always end in ".py": drop the three suffix characters and
append ".log". -/
def logPathOf (script_path : String) : String :=
  String.mk script_path.data.dropLast.dropLast.dropLast ++ ".log"

/-- Embeds `_EmbeddedFreeCADRuntime._execute_internal`: both the direct and
the Qt-bridged paths funnel into this function, whose result is built from
the `exec` outcome. -/
def embedded_execute (pyExec : String → String → PyExecOutcome)
    (script_body script_path : String) : ScriptExecutionResult :=
  match pyExec script_body script_path with
  | .ok buffer affected =>
    ⟨true, script_path, pySplitlines buffer, none, affected⟩
  | .exn buffer tracebackLines message affected =>
    ⟨false, script_path, pySplitlines buffer ++ tracebackLines, some message, affected⟩

/-- Embeds `FreeCADEngine._scan_for_errors`. -/
def scan_for_errors (log_lines : List String) : Option String :=
  let joined := pyJoin "\n" log_lines
  if strContains joined "Traceback" then some "FreeCAD reported a traceback"
  else
    match ["[ERR]", "Error:", "RuntimeError", "Exception"].find?
        (fun marker => strContains joined marker) with
    | some marker => some ("Detected error marker \x27" ++ marker ++ "\x27 in FreeCAD log")
    | none => none

/-- Embeds `FreeCADEngine._simulate_execution`. -/
def simulate_execution (script_body script_path : String) : ScriptExecutionResult :=
  let output_log := ["[simulated] Running FreeCAD macro " ++ pathName script_path,
                     "[simulated] FreeCAD started in headless mode"]
  if strContains script_body "raise" then
    ⟨false, script_path, output_log, some "Script contains explicit raise statement", []⟩
  else
    ⟨true, script_path, output_log ++ ["[simulated] FreeCAD finished successfully"], none, []⟩

/-- Embeds `FreeCADEngine._run_with_freecad`. Returns the filesystem after
the child process possibly wrote the log file, the execution result, and the
executable reference left in the engine (`none` after a
`FileNotFoundError`, in which case the persisted script body is re-read and
simulated instead). -/
def run_with_freecad (proc : String → String → String → ProcResult) (exe : String)
    (fs : FS) (script_path : String) : FS × ScriptExecutionResult × Option String :=
  let log_path := logPathOf script_path
  match proc exe log_path script_path with
  | .timeout =>
    (fs, ⟨false, script_path, ["FreeCAD execution timed out"], some "Execution timed out", []⟩,
      some exe)
  | .fileNotFound =>
    (fs, simulate_execution ((fs script_path).getD "") script_path, none)
  | .completed returncode stdout stderr logWrite =>
    let fs2 := match logWrite with
      | some c => fsWrite fs log_path c
      | none => fs
    let output_log := pySplitlines stdout ++ pySplitlines stderr ++
      (match fs2 log_path with
       | some c => pySplitlines c
       | none => [])
    let error := if returncode ≠ 0 then some ("FreeCAD exited with code " ++ toString returncode)
                 else scan_for_errors output_log
    (fs2, ⟨error.isNone, script_path, output_log, error, []⟩, some exe)

/-- Embeds `FreeCADEngine.run_script`: persist the script body, then pick
the embedded runtime, the out-of-process strategy or the simulation, in that
order. Returns the new filesystem, the result and the (possibly updated)
engine. -/
def run_script (e : Engine) (fs : FS) (script_body : String) (iteration : Nat) :
    FS × ScriptExecutionResult × Engine :=
  let script_path := scriptPathOf e.workspace iteration
  let fs1 := fsWrite fs script_path script_body
  match e.embedded with
  | some pyExec => (fs1, embedded_execute pyExec script_body script_path, e)
  | none =>
    match e.executable with
    | some exe =>
      let r := run_with_freecad e.proc exe fs1 script_path
      (r.1, r.2.1, { e with executable := r.2.2 })
    | none => (fs1, simulate_execution script_body script_path, e)

/-- Chat message handed to the LLM client. -/
structure Message where
  role : String
  content : String
  deriving Repr, DecidableEq

/-- One rendered view (`RenderResult` in rendering.py); the pipeline only
consumes the image path. -/
structure RenderResult where
  view : String
  image_path : String
  deriving Repr, DecidableEq

/-- Context handed to the script generator (`ScriptGenerationContext` in
script_generation.py). The `environment` metadata field always keeps its
default in the pipeline and is omitted here. -/
structure ScriptGenerationContext where
  requirement : String
  previous_errors : List String
  request_additional_views : Bool
  requires_assembly : Bool
  script_history : List String
  deriving Repr, DecidableEq

/-- Review verdict (`RenderReview` in pipeline.py). -/
structure RenderReview where
  feedback : String
  needs_additional_views : Bool
  deriving Repr, DecidableEq

/-- Record of one iteration (`IterationArtifact` in pipeline.py). -/
structure IterationArtifact where
  iteration : Nat
  script_path : String
  script_body : String
  output_log : List String
  render_paths : List String
  success : Bool
  error : Option String
  render_feedback : Option String
  affected_objects : List String
  deriving Repr, DecidableEq

/-- Run report (`PipelineReport`). -/
structure PipelineReport where
  requirement : String
  artifacts : List IterationArtifact
  deriving Repr, DecidableEq

/-- The `successful` property of the report. -/
def PipelineReport.successful (r : PipelineReport) : Bool :=
  r.artifacts.any (fun a => a.success)

/-- Pipeline settings used by the loop (`PipelineConfig` in config.py; the
workspace path is owned by the engine). -/
structure PipelineConfig where
  max_iterations : Nat
  request_additional_views_on_failure : Bool
  deriving Repr, DecidableEq

/-- Oracles for the collaborators of `DesignAgent.run`: the script
generator, the execution engine, the renderer, the LLM completion used by
the review step (which may raise, modelled as `Except`), the JSON-object
decoding used by `_parse_render_response` (mapping a response to the
truthiness of its `needs_additional_views` field and the string of its
`feedback` field, `none` standing for a `JSONDecodeError`), and the
cancellation predicate as a function of how many times it was called. -/
structure PipelineOracle where
  generate : ScriptGenerationContext → String
  runScript : String → Nat → ScriptExecutionResult
  render : String → Nat → List RenderResult
  complete : List Message → List String → Except String String
  jsonLoads : String → Option (Bool × String)
  cancelled : Option (Nat → Bool)

/-- Whether the cancellation predicate, consulted for the `c`-th time,
reports cancellation. -/
def cancelsAt (o : PipelineOracle) (c : Nat) : Bool :=
  match o.cancelled with
  | none => false
  | some f => f c

/-- Number of predicate consultations after one more checkpoint (the
checkpoint calls the predicate only when one was supplied). -/
def bump (o : PipelineOracle) (c : Nat) : Nat :=
  match o.cancelled with
  | none => c
  | some _ => c + 1

/-- Embeds `DesignAgent._require_assembly`. -/
def require_assembly (requirement : String) : Bool :=
  ["assembly", "assemblies", "сборк"].any
    (fun keyword => strContains (pyLower requirement) keyword)

/-- Embeds `DesignAgent._tail_lines`. -/
def tail_lines (log_lines : List String) (limit : Nat) : List String :=
  if log_lines.length ≤ limit then log_lines
  else ("... truncated " ++ toString (log_lines.length - limit) ++ " earlier lines ...")
    :: log_lines.drop (log_lines.length - limit)

/-- Line list built by `DesignAgent._format_execution_feedback` before the
final join. -/
def format_execution_feedback_lines (iteration : Nat) (execution : ScriptExecutionResult) :
    List String :=
  let l1 := ["Iteration " ++ toString iteration ++ " FreeCAD execution failed."]
  let l2 := if optTruthy execution.error
            then l1 ++ ["Error: " ++ execution.error.getD ""] else l1
  let l3 := if execution.output_log.isEmpty then l2
            else l2 ++ ("Recent FreeCAD output:" :: tail_lines execution.output_log 40)
  if !optTruthy execution.error && execution.output_log.isEmpty
  then l3 ++ ["No output was captured before the failure."] else l3

/-- Embeds `DesignAgent._format_execution_feedback`. -/
def format_execution_feedback (iteration : Nat) (execution : ScriptExecutionResult) : String :=
  pyJoin "\n" (format_execution_feedback_lines iteration execution)

/-- Embeds `DesignAgent._parse_render_response`, with JSON-object decoding
supplied as an oracle. -/
def parse_render_response (jsonLoads : String → Option (Bool × String))
    (response : String) : RenderReview :=
  match jsonLoads response with
  | some (needs_more, feedback_field) =>
    { feedback := if feedback_field == "" then "LLM render review complete" else feedback_field
      needs_additional_views := needs_more }
  | none =>
    let lowered := pyLower response
    let needs_more := strContains lowered "additional" || strContains lowered "extra view"
    { feedback := if response.trim == "" then "Render review response received" else response.trim
      needs_additional_views := needs_more }

/-- Conversation built by `DesignAgent._review_renders` for the LLM call. -/
def reviewMessages (requirement : String) (iteration : Nat) (success : Bool) : List Message :=
  [⟨"system", "You are a manufacturing inspector reviewing rendered CAD previews. Respond with JSON containing \x27needs_additional_views\x27 (true/false) and \x27feedback\x27."⟩,
   ⟨"user", pyJoin "\n"
     ["=== RENDER REVIEW ===",
      "Requirement: " ++ requirement.trim,
      "Iteration: " ++ toString iteration,
      "Succeeded: " ++ pyBool success,
      "If geometry is unclear request additional projections."]⟩]

/-- Embeds `DesignAgent._review_renders`: short-circuit when no renders
exist, otherwise complete and parse; any exception from the LLM call is
downgraded to an explanatory review. -/
def review_renders (o : PipelineOracle) (requirement : String) (iteration : Nat)
    (renders : List RenderResult) (success : Bool) : RenderReview :=
  let image_paths := renders.map (fun r => r.image_path)
  if image_paths.isEmpty then { feedback := "Rendering disabled", needs_additional_views := false }
  else
    match o.complete (reviewMessages requirement iteration success) image_paths with
    | .ok response => parse_render_response o.jsonLoads response
    | .error exc => { feedback := "Render review failed: " ++ exc, needs_additional_views := false }

/-- Running state of `DesignAgent.run`. The fields `errors`, `pending`,
`history` and `artifacts` are the locals of the Python loop; `calls` counts
consultations of the cancellation predicate; `ctxs`, `execs` and `revs` are
ghost traces recording every context handed to the generator, every
execution result and every review verdict, in order. -/
structure LoopState where
  errors : List String
  pending : Bool
  history : List String
  artifacts : List IterationArtifact
  calls : Nat
  ctxs : List ScriptGenerationContext
  execs : List ScriptExecutionResult
  revs : List RenderReview

/-- Initial running state of a run. -/
def initState : LoopState := ⟨[], false, [], [], 0, [], [], []⟩

/-- Result of one pass through the loop body: a cancellation checkpoint
fired (the run raises `PipelineCancelledError`), the execution succeeded
(the loop breaks), or the loop continues with the next iteration. -/
inductive StepResult where
  | halted (st : LoopState)
  | finished (st : LoopState)
  | next (st : LoopState)

/-- State carried by a step result. -/
def StepResult.state : StepResult → LoopState
  | .halted st => st
  | .finished st => st
  | .next st => st

/-- Constructor tag of a step result (0 halted, 1 finished, 2 next). -/
def StepResult.kind : StepResult → Nat
  | .halted _ => 0
  | .finished _ => 1
  | .next _ => 2

/-- Context built at the top of each iteration of `DesignAgent.run` (lines
91-100 of pipeline.py). -/
def mkContext (cfg : PipelineConfig) (requirement : String) (assembly_required : Bool)
    (st : LoopState) : ScriptGenerationContext :=
  { requirement := requirement
    previous_errors := st.errors
    request_additional_views :=
      (cfg.request_additional_views_on_failure && !st.errors.isEmpty) || st.pending
    requires_assembly := assembly_required
    script_history := st.history }

/-- One iteration of the body of `DesignAgent.run`, in source order:
checkpoint, build context, generate, checkpoint, execute, checkpoint,
render, checkpoint, review, sticky-flag update, append artifact, break on
success, otherwise append feedback and a final checkpoint. -/
def runStep (o : PipelineOracle) (cfg : PipelineConfig) (requirement : String)
    (assembly_required : Bool) (iteration : Nat) (st : LoopState) : StepResult :=
  if cancelsAt o st.calls then .halted { st with calls := bump o st.calls } else
  let context := mkContext cfg requirement assembly_required st
  let script := o.generate context
  let st2 := { st with
    calls := bump o st.calls
    ctxs := st.ctxs ++ [context]
    history := st.history ++ [script] }
  if cancelsAt o st2.calls then .halted { st2 with calls := bump o st2.calls } else
  let execution := o.runScript script iteration
  let st3 := { st2 with calls := bump o st2.calls, execs := st2.execs ++ [execution] }
  if cancelsAt o st3.calls then .halted { st3 with calls := bump o st3.calls } else
  let renders := o.render requirement iteration
  let st4 := { st3 with calls := bump o st3.calls }
  if cancelsAt o st4.calls then .halted { st4 with calls := bump o st4.calls } else
  let review := review_renders o requirement iteration renders execution.success
  let artifact : IterationArtifact :=
    { iteration := iteration
      script_path := execution.script_path
      script_body := script
      output_log := execution.output_log
      render_paths := renders.map (fun r => r.image_path)
      success := execution.success
      error := execution.error
      render_feedback := some review.feedback
      affected_objects := execution.affected_objects }
  let st5 := { st4 with
    calls := bump o st4.calls
    pending := st4.pending || review.needs_additional_views
    revs := st4.revs ++ [review]
    artifacts := st4.artifacts ++ [artifact] }
  if execution.success then .finished st5 else
  let st6 := { st5 with errors := st5.errors ++ [format_execution_feedback iteration execution] }
  if cancelsAt o st6.calls then .halted { st6 with calls := bump o st6.calls } else
  .next { st6 with calls := bump o st6.calls }

/-- The loop of `DesignAgent.run` from a given iteration index with the
given remaining iteration budget. The boolean is true when a cancellation
checkpoint fired (`PipelineCancelledError` propagates out of `run`). -/
def runFrom (o : PipelineOracle) (cfg : PipelineConfig) (requirement : String)
    (assembly_required : Bool) : Nat → Nat → LoopState → Bool × LoopState
  | 0, _, st => (false, st)
  | fuel + 1, iteration, st =>
    match runStep o cfg requirement assembly_required iteration st with
    | .halted st2 => (true, st2)
    | .finished st2 => (false, st2)
    | .next st2 => runFrom o cfg requirement assembly_required fuel (iteration + 1) st2

/-- Full traced run of `DesignAgent.run`. -/
def runTrace (o : PipelineOracle) (cfg : PipelineConfig) (requirement : String) :
    Bool × LoopState :=
  runFrom o cfg requirement (require_assembly requirement) cfg.max_iterations 1 initState

/-- Embeds `DesignAgent.run`: returns the report, or the
`PipelineCancelledError` message when a checkpoint fired. -/
def run (o : PipelineOracle) (cfg : PipelineConfig) (requirement : String) :
    Except String PipelineReport :=
  match runTrace o cfg requirement with
  | (true, _) => .error "Pipeline run was cancelled"
  | (false, st) => .ok { requirement := requirement, artifacts := st.artifacts }

/-- Every consultation of the cancellation predicate made so far came back
false. -/
def CallsClean (o : PipelineOracle) (st : LoopState) : Prop :=
  ∀ f, o.cancelled = some f → ∀ c, c < st.calls → f c = false

/-- Invariant satisfied by every state the loop can leave behind, whether it
ran out of iterations, broke on success, or was cancelled at a checkpoint.
Indices are 0-based positions in the ghost traces; the iteration number of
position `i` is `i + 1`. -/
structure FinalInv (cfg : PipelineConfig) (st : LoopState) : Prop where
  execs_le_ctxs : st.execs.length ≤ st.ctxs.length
  ctxs_le_execs : st.ctxs.length ≤ st.execs.length + 1
  revs_le_execs : st.revs.length ≤ st.execs.length
  arts_eq_revs : st.artifacts.length = st.revs.length
  errors_le_execs : st.errors.length ≤ st.execs.length
  ctxs_le_errors : st.ctxs.length ≤ st.errors.length + 1
  errors_get : ∀ i (h : i < st.errors.length) (h2 : i < st.execs.length),
    st.errors.get ⟨i, h⟩ = format_execution_feedback (i + 1) (st.execs.get ⟨i, h2⟩)
  ctx_prev : ∀ i (h : i < st.ctxs.length),
    (st.ctxs.get ⟨i, h⟩).previous_errors = st.errors.take i
  ctx_req : ∀ i (h : i < st.ctxs.length),
    (st.ctxs.get ⟨i, h⟩).request_additional_views =
      ((cfg.request_additional_views_on_failure && decide (0 < i))
        || (st.revs.take i).any (fun r => r.needs_additional_views))
  art_iter : ∀ i (h : i < st.artifacts.length),
    (st.artifacts.get ⟨i, h⟩).iteration = i + 1
  art_success : ∀ i (h : i < st.artifacts.length) (h2 : i < st.execs.length),
    (st.artifacts.get ⟨i, h⟩).success = (st.execs.get ⟨i, h2⟩).success ∧
    (st.artifacts.get ⟨i, h⟩).error = (st.execs.get ⟨i, h2⟩).error
  exec_success_last : ∀ i (h : i < st.execs.length),
    (st.execs.get ⟨i, h⟩).success = true → i + 1 = st.execs.length

/-- Invariant at the head of the loop, before starting iteration `n + 1`:
exactly `n` completed iterations, all of them failed. -/
structure LoopInv (o : PipelineOracle) (cfg : PipelineConfig) (n : Nat) (st : LoopState)
    extends FinalInv cfg st : Prop where
  ctxs_len : st.ctxs.length = n
  execs_len : st.execs.length = n
  revs_len : st.revs.length = n
  arts_len : st.artifacts.length = n
  errors_len : st.errors.length = n
  pending_eq : st.pending = st.revs.any (fun r => r.needs_additional_views)
  execs_failed : ∀ i (h : i < st.execs.length), (st.execs.get ⟨i, h⟩).success = false
  calls_clean : CallsClean o st

/-- What one pass through the loop body guarantees, by outcome. -/
def StepSpec (o : PipelineOracle) (cfg : PipelineConfig) (n : Nat) : StepResult → Prop
  | .halted st2 => FinalInv cfg st2
  | .finished st2 => FinalInv cfg st2 ∧ CallsClean o st2
  | .next st2 => LoopInv o cfg (n + 1) st2

/-- Counterexample execution result for claim C7: a failed execution with an
error summary and one output line. -/
def exC7 : ScriptExecutionResult :=
  ⟨false, "w/iteration_2.py", ["boom output"], some "boom", []⟩

/-- Witness oracle for C1: every execution fails with an error and one
output line. -/
def oC1 : PipelineOracle :=
  { generate := fun _ => "scr"
    runScript := fun _ _ => ⟨false, "w/iteration.py", ["lineA"], some "boom", []⟩
    render := fun _ _ => []
    complete := fun _ _ => Except.ok ""
    jsonLoads := fun _ => none
    cancelled := none }

/-- Witness config for C1: two iterations. -/
def cfgC1 : PipelineConfig := ⟨2, true⟩

/-- Witness oracle for C2: executions fail, renders exist, and the review
verdict always requests additional views. -/
def oC2 : PipelineOracle :=
  { generate := fun _ => "scr"
    runScript := fun _ _ => ⟨false, "w/iteration.py", [], some "boom", []⟩
    render := fun _ _ => [⟨"isometric", "img.png"⟩]
    complete := fun _ _ => Except.ok "{}"
    jsonLoads := fun _ => some (true, "need more views")
    cancelled := none }

/-- Witness config for C2: two iterations, failure-triggered view requests
disabled so only the sticky flag can set the request. -/
def cfgC2 : PipelineConfig := ⟨2, false⟩

/-- Witness subprocess oracle for C3: exit code zero with a traceback in
captured stdout. -/
def procC3 : String → String → String → ProcResult :=
  fun _ _ _ => ProcResult.completed 0 "ok\nTraceback (most recent call last):" "" none

/-- Witness filesystem for C3. -/
def fsC3 : FS := fun _ => none

/-- Witness oracle for C5: the cancellation predicate is false on its first
consultation and true afterwards. -/
def oC5 : PipelineOracle :=
  { generate := fun _ => "scr"
    runScript := fun _ _ => ⟨true, "w/iteration.py", [], none, []⟩
    render := fun _ _ => []
    complete := fun _ _ => Except.ok ""
    jsonLoads := fun _ => none
    cancelled := some (fun k => decide (1 ≤ k)) }

/-- Witness config for C5. -/
def cfgC5 : PipelineConfig := ⟨1, true⟩

/-- Witness engine for C6: an executable is cached but the launch raises
FileNotFoundError. -/
def engC6 : Engine :=
  { workspace := "w"
    executable := some "fc"
    embedded := none
    proc := fun _ _ _ => ProcResult.fileNotFound }

/-- Witness filesystem for C6. -/
def fsC6 : FS := fun _ => none

/-- Witness oracle for C8: the review LLM call raises. -/
def oC8 : PipelineOracle :=
  { generate := fun _ => "scr"
    runScript := fun _ _ => ⟨true, "w/iteration.py", [], none, []⟩
    render := fun _ _ => [⟨"isometric", "img.png"⟩]
    complete := fun _ _ => Except.error "boom"
    jsonLoads := fun _ => none
    cancelled := none }

/-- Witness oracle for C10: the first execution succeeds. -/
def oC10 : PipelineOracle :=
  { generate := fun _ => "scr"
    runScript := fun _ _ => ⟨true, "w/iteration_1.py", [], none, []⟩
    render := fun _ _ => []
    complete := fun _ _ => Except.ok ""
    jsonLoads := fun _ => none
    cancelled := none }

/-- Witness config for C10. -/
def cfgC10 : PipelineConfig := ⟨3, true⟩

/-- Report produced by the C10 witness run. -/
def repC10 : PipelineReport :=
  ⟨"box", [⟨1, "w/iteration_1.py", "scr", [], [], true, none, some "Rendering disabled", []⟩]⟩

/-! ## Theorems -/

theorem listIsPre_iff (p l : List Char) : listIsPre p l = true ↔ ∃ t, l = p ++ t := by
  induction p generalizing l with
  | nil => simp [listIsPre]
  | cons a p ih =>
    cases l with
    | nil => simp [listIsPre]
    | cons b l =>
      simp only [listIsPre, Bool.and_eq_true, beq_iff_eq, ih]
      constructor
      · rintro ⟨rfl, t, rfl⟩
        exact ⟨t, rfl⟩
      · rintro ⟨t, h⟩
        rw [List.cons_append] at h
        cases h
        exact ⟨rfl, t, rfl⟩

theorem listIsInfix_iff (p l : List Char) :
    listIsInfix p l = true ↔ ∃ a b, l = a ++ (p ++ b) := by
  induction l with
  | nil =>
    simp only [listIsInfix, listIsPre_iff]
    constructor
    · rintro ⟨t, ht⟩
      exact ⟨[], t, by simpa using ht⟩
    · rintro ⟨a, b, h⟩
      rcases List.append_eq_nil.mp h.symm with ⟨rfl, h2⟩
      rcases List.append_eq_nil.mp h2 with ⟨rfl, rfl⟩
      exact ⟨[], rfl⟩
  | cons c l ih =>
    simp only [listIsInfix, Bool.or_eq_true, listIsPre_iff, ih]
    constructor
    · rintro (⟨t, ht⟩ | ⟨a, b, h⟩)
      · exact ⟨[], t, by simpa using ht⟩
      · exact ⟨c :: a, b, by simp [h]⟩
    · rintro ⟨a, b, h⟩
      cases a with
      | nil =>
        left
        exact ⟨b, by simpa using h⟩
      | cons a0 a =>
        right
        rw [List.cons_append] at h
        cases h
        exact ⟨a, b, rfl⟩

theorem strContains_iff (s pat : String) :
    strContains s pat = true ↔ ∃ a b, s.data = a ++ (pat.data ++ b) :=
  listIsInfix_iff pat.data s.data

theorem strContains_append_left (a b pat : String) (h : strContains a pat = true) :
    strContains (a ++ b) pat = true := by
  rcases (strContains_iff a pat).mp h with ⟨x, y, hx⟩
  refine (strContains_iff (a ++ b) pat).mpr ⟨x, y ++ b.data, ?_⟩
  rw [String.data_append, hx]
  simp

theorem strContains_append_right (a b pat : String) (h : strContains b pat = true) :
    strContains (a ++ b) pat = true := by
  rcases (strContains_iff b pat).mp h with ⟨x, y, hx⟩
  refine (strContains_iff (a ++ b) pat).mpr ⟨a.data ++ x, y, ?_⟩
  rw [String.data_append, hx]
  simp

theorem strContains_refl (s : String) : strContains s s = true := by
  exact (strContains_iff s s).mpr ⟨[], [], by simp⟩

theorem strContains_trans (s mid pat : String) (h1 : strContains s mid = true)
    (h2 : strContains mid pat = true) : strContains s pat = true := by
  rcases (strContains_iff s mid).mp h1 with ⟨x, y, hx⟩
  rcases (strContains_iff mid pat).mp h2 with ⟨u, v, hu⟩
  refine (strContains_iff s pat).mpr ⟨x ++ u, v ++ y, ?_⟩
  rw [hx, hu]
  simp

theorem strContains_pyJoin_of_mem (sep : String) (xs : List String) (x : String)
    (hx : x ∈ xs) : strContains (pyJoin sep xs) x = true := by
  induction xs with
  | nil => cases hx
  | cons y ys ih =>
    cases ys with
    | nil =>
      rcases List.mem_singleton.mp hx with rfl
      exact strContains_refl x
    | cons z zs =>
      rcases List.mem_cons.mp hx with rfl | hmem
      · exact strContains_append_left _ _ _ (strContains_append_left _ _ _ (strContains_refl x))
      · exact strContains_append_right _ _ _ (ih hmem)

theorem logPathOf_ne (s : String) : logPathOf s ≠ s := by
  intro h
  have hl : (logPathOf s).length = s.length := by rw [h]
  have h1 : (logPathOf s).length = s.data.dropLast.dropLast.dropLast.length + 4 := by
    rw [logPathOf, String.length_append]
    rfl
  have h2 : s.length = s.data.length := rfl
  simp only [List.length_dropLast] at h1
  omega

theorem list_not_isEmpty (l : List α) : (!l.isEmpty) = decide (0 < l.length) := by
  cases l <;> simp

theorem get_append_last (l : List α) (x : α) (i : Nat) (hi : i = l.length)
    (h : i < (l ++ [x]).length) : (l ++ [x]).get ⟨i, h⟩ = x := by
  subst hi
  simp

theorem get_append_lt (l : List α) (x : α) (i : Nat) (h2 : i < l.length)
    (h : i < (l ++ [x]).length) : (l ++ [x]).get ⟨i, h⟩ = l.get ⟨i, h2⟩ := by
  simp [List.getElem_append_left h2]

theorem runStep_inv (o : PipelineOracle) (cfg : PipelineConfig) (requirement : String)
    (assembly_required : Bool) (n : Nat) (st : LoopState) (hInv : LoopInv o cfg n st) :
    StepSpec o cfg n (runStep o cfg requirement assembly_required (n + 1) st) := by
  simp only [runStep]
  by_cases h1 : cancelsAt o st.calls
  · simp only [if_pos h1]
    exact ⟨hInv.execs_le_ctxs, hInv.ctxs_le_execs, hInv.revs_le_execs, hInv.arts_eq_revs,
      hInv.errors_le_execs, hInv.ctxs_le_errors, hInv.errors_get, hInv.ctx_prev, hInv.ctx_req,
      hInv.art_iter, hInv.art_success, hInv.exec_success_last⟩
  · simp only [if_neg h1]
    generalize hctx : mkContext cfg requirement assembly_required st = context
    generalize hscript : o.generate context = script
    generalize hexec : o.runScript script (n + 1) = execution
    generalize hrend : o.render requirement (n + 1) = renders
    generalize hrevw : review_renders o requirement (n + 1) renders execution.success = review
    have e_ctxs := hInv.ctxs_len
    have e_execs := hInv.execs_len
    have e_revs := hInv.revs_len
    have e_arts := hInv.arts_len
    have e_errs := hInv.errors_len
    have hprev : context.previous_errors = st.errors := by rw [← hctx]; rfl
    have hreqv : context.request_additional_views =
        ((cfg.request_additional_views_on_failure && decide (0 < n)) ||
          st.revs.any (fun r => r.needs_additional_views)) := by
      rw [← hctx]
      show ((cfg.request_additional_views_on_failure && !st.errors.isEmpty) || st.pending) = _
      rw [list_not_isEmpty, hInv.errors_len, hInv.pending_eq]
    by_cases h2 : cancelsAt o (bump o st.calls)
    · simp only [if_pos h2]
      refine ⟨?_, ?_, ?_, ?_, ?_, ?_, hInv.errors_get, ?_, ?_, hInv.art_iter,
        hInv.art_success, ?_⟩
      · simp only [List.length_append, List.length_singleton]
        omega
      · simp only [List.length_append, List.length_singleton]
        omega
      · dsimp only
        omega
      · dsimp only
        omega
      · dsimp only
        omega
      · simp only [List.length_append, List.length_singleton]
        omega
      · intro i h
        simp only [List.length_append, List.length_singleton] at h
        rcases Nat.lt_or_ge i st.ctxs.length with hi | hi
        · rw [get_append_lt _ _ _ hi]
          exact hInv.ctx_prev i hi
        · have hie : i = st.ctxs.length := by omega
          rw [get_append_last _ _ _ hie, hprev, hie, e_ctxs, ← e_errs, List.take_length]
      · intro i h
        simp only [List.length_append, List.length_singleton] at h
        rcases Nat.lt_or_ge i st.ctxs.length with hi | hi
        · rw [get_append_lt _ _ _ hi]
          exact hInv.ctx_req i hi
        · have hie : i = st.ctxs.length := by omega
          have htake : st.revs.take i = st.revs := by
            rw [hie, e_ctxs, ← e_revs, List.take_length]
          rw [get_append_last _ _ _ hie, hreqv, htake, hie, e_ctxs]
      · intro i h hsucc
        dsimp only at h hsucc
        rw [hInv.execs_failed i h] at hsucc
        cases hsucc
    · simp only [if_neg h2]
      by_cases h3 : cancelsAt o (bump o (bump o st.calls))
      · simp only [if_pos h3]
        refine ⟨?_, ?_, ?_, ?_, ?_, ?_, ?_, ?_, ?_, hInv.art_iter, ?_, ?_⟩
        · simp only [List.length_append, List.length_singleton]
          omega
        · simp only [List.length_append, List.length_singleton]
          omega
        · simp only [List.length_append, List.length_singleton]
          omega
        · dsimp only
          omega
        · simp only [List.length_append, List.length_singleton]
          omega
        · simp only [List.length_append, List.length_singleton]
          omega
        · intro i h h2x
          dsimp only at h h2x ⊢
          rw [get_append_lt _ _ _ (show i < st.execs.length by omega)]
          exact hInv.errors_get i h _
        · intro i h
          simp only [List.length_append, List.length_singleton] at h
          rcases Nat.lt_or_ge i st.ctxs.length with hi | hi
          · rw [get_append_lt _ _ _ hi]
            exact hInv.ctx_prev i hi
          · have hie : i = st.ctxs.length := by omega
            rw [get_append_last _ _ _ hie, hprev, hie, e_ctxs, ← e_errs, List.take_length]
        · intro i h
          simp only [List.length_append, List.length_singleton] at h
          rcases Nat.lt_or_ge i st.ctxs.length with hi | hi
          · rw [get_append_lt _ _ _ hi]
            exact hInv.ctx_req i hi
          · have hie : i = st.ctxs.length := by omega
            have htake : st.revs.take i = st.revs := by
              rw [hie, e_ctxs, ← e_revs, List.take_length]
            rw [get_append_last _ _ _ hie, hreqv, htake, hie, e_ctxs]
        · intro i h h2x
          dsimp only at h h2x ⊢
          rw [get_append_lt _ _ _ (show i < st.execs.length by omega)]
          exact hInv.art_success i h _
        · intro i h hsucc
          dsimp only at h hsucc ⊢
          simp only [List.length_append, List.length_singleton] at h ⊢
          rcases Nat.lt_or_ge i st.execs.length with hi | hi
          · rw [get_append_lt _ _ _ hi] at hsucc
            rw [hInv.execs_failed i hi] at hsucc
            cases hsucc
          · omega
      · simp only [if_neg h3]
        by_cases h4 : cancelsAt o (bump o (bump o (bump o st.calls)))
        · simp only [if_pos h4]
          refine ⟨?_, ?_, ?_, ?_, ?_, ?_, ?_, ?_, ?_, hInv.art_iter, ?_, ?_⟩
          · simp only [List.length_append, List.length_singleton]
            omega
          · simp only [List.length_append, List.length_singleton]
            omega
          · simp only [List.length_append, List.length_singleton]
            omega
          · dsimp only
            omega
          · simp only [List.length_append, List.length_singleton]
            omega
          · simp only [List.length_append, List.length_singleton]
            omega
          · intro i h h2x
            dsimp only at h h2x ⊢
            rw [get_append_lt _ _ _ (show i < st.execs.length by omega)]
            exact hInv.errors_get i h _
          · intro i h
            simp only [List.length_append, List.length_singleton] at h
            rcases Nat.lt_or_ge i st.ctxs.length with hi | hi
            · rw [get_append_lt _ _ _ hi]
              exact hInv.ctx_prev i hi
            · have hie : i = st.ctxs.length := by omega
              rw [get_append_last _ _ _ hie, hprev, hie, e_ctxs, ← e_errs, List.take_length]
          · intro i h
            simp only [List.length_append, List.length_singleton] at h
            rcases Nat.lt_or_ge i st.ctxs.length with hi | hi
            · rw [get_append_lt _ _ _ hi]
              exact hInv.ctx_req i hi
            · have hie : i = st.ctxs.length := by omega
              have htake : st.revs.take i = st.revs := by
                rw [hie, e_ctxs, ← e_revs, List.take_length]
              rw [get_append_last _ _ _ hie, hreqv, htake, hie, e_ctxs]
          · intro i h h2x
            dsimp only at h h2x ⊢
            rw [get_append_lt _ _ _ (show i < st.execs.length by omega)]
            exact hInv.art_success i h _
          · intro i h hsucc
            dsimp only at h hsucc ⊢
            simp only [List.length_append, List.length_singleton] at h ⊢
            rcases Nat.lt_or_ge i st.execs.length with hi | hi
            · rw [get_append_lt _ _ _ hi] at hsucc
              rw [hInv.execs_failed i hi] at hsucc
              cases hsucc
            · omega
        · simp only [if_neg h4]
          by_cases hs : execution.success = true
          · simp only [if_pos hs]
            refine ⟨⟨?_, ?_, ?_, ?_, ?_, ?_, ?_, ?_, ?_, ?_, ?_, ?_⟩, ?_⟩
            · simp only [List.length_append, List.length_singleton]
              omega
            · simp only [List.length_append, List.length_singleton]
              omega
            · simp only [List.length_append, List.length_singleton]
              omega
            · simp only [List.length_append, List.length_singleton]
              omega
            · simp only [List.length_append, List.length_singleton]
              omega
            · simp only [List.length_append, List.length_singleton]
              omega
            · intro i h h2x
              dsimp only at h h2x ⊢
              rw [get_append_lt _ _ _ (show i < st.execs.length by omega)]
              exact hInv.errors_get i h _
            · intro i h
              simp only [List.length_append, List.length_singleton] at h
              rcases Nat.lt_or_ge i st.ctxs.length with hi | hi
              · rw [get_append_lt _ _ _ hi]
                exact hInv.ctx_prev i hi
              · have hie : i = st.ctxs.length := by omega
                rw [get_append_last _ _ _ hie, hprev, hie, e_ctxs, ← e_errs, List.take_length]
            · intro i h
              simp only [List.length_append, List.length_singleton] at h
              rcases Nat.lt_or_ge i st.ctxs.length with hi | hi
              · rw [get_append_lt _ _ _ hi,
                  List.take_append_of_le_length (show i ≤ st.revs.length by omega)]
                exact hInv.ctx_req i hi
              · have hie : i = st.ctxs.length := by omega
                have htake : (st.revs ++ [review]).take i = st.revs := by
                  rw [hie, e_ctxs, ← e_revs]
                  exact List.take_left _ _
                rw [get_append_last _ _ _ hie, hreqv, htake, hie, e_ctxs]
            · intro i h
              simp only [List.length_append, List.length_singleton] at h
              rcases Nat.lt_or_ge i st.artifacts.length with hi | hi
              · rw [get_append_lt _ _ _ hi]
                exact hInv.art_iter i hi
              · rw [get_append_last _ _ _ (show i = st.artifacts.length by omega)]
                show n + 1 = i + 1
                omega
            · intro i h h2x
              dsimp only at h2x
              simp only [List.length_append, List.length_singleton] at h h2x
              rcases Nat.lt_or_ge i st.artifacts.length with hi | hi
              · rw [get_append_lt _ _ _ hi,
                  get_append_lt _ _ _ (show i < st.execs.length by omega)]
                exact hInv.art_success i hi _
              · rw [get_append_last _ _ _ (show i = st.artifacts.length by omega),
                  get_append_last _ _ _ (show i = st.execs.length by omega)]
                exact ⟨rfl, rfl⟩
            · intro i h hsucc
              dsimp only at h hsucc
              simp only [List.length_append, List.length_singleton] at h ⊢
              rcases Nat.lt_or_ge i st.execs.length with hi | hi
              · rw [get_append_lt _ _ _ hi] at hsucc
                rw [hInv.execs_failed i hi] at hsucc
                cases hsucc
              · omega
            · intro f hf c hc
              dsimp only at hc
              simp only [bump, hf] at hc
              simp only [cancelsAt, bump, hf, Bool.not_eq_true] at h1 h2 h3 h4
              rcases Nat.lt_or_ge c st.calls with hcl | hcl
              · exact hInv.calls_clean f hf c hcl
              · have hcc : c = st.calls ∨ c = st.calls + 1 ∨ c = st.calls + 2 ∨
                    c = st.calls + 3 := by omega
                rcases hcc with rfl | rfl | rfl | rfl
                · exact h1
                · exact h2
                · exact h3
                · exact h4
          · simp only [if_neg hs]
            have hsf : execution.success = false := by simpa using hs
            have hfinFG : ∀ (c : Nat) (H : List String), FinalInv cfg
                ⟨st.errors ++ [format_execution_feedback (n + 1) execution],
                 st.pending || review.needs_additional_views, H,
                 st.artifacts ++ [⟨n + 1, execution.script_path, script, execution.output_log,
                   List.map (fun r => r.image_path) renders, execution.success, execution.error,
                   some review.feedback, execution.affected_objects⟩], c,
                 st.ctxs ++ [context], st.execs ++ [execution], st.revs ++ [review]⟩ := by
              intro c H
              refine ⟨?_, ?_, ?_, ?_, ?_, ?_, ?_, ?_, ?_, ?_, ?_, ?_⟩
              · simp only [List.length_append, List.length_singleton]
                omega
              · simp only [List.length_append, List.length_singleton]
                omega
              · simp only [List.length_append, List.length_singleton]
                omega
              · simp only [List.length_append, List.length_singleton]
                omega
              · simp only [List.length_append, List.length_singleton]
                omega
              · simp only [List.length_append, List.length_singleton]
                omega
              · intro i h h2x
                dsimp only at h h2x ⊢
                simp only [List.length_append, List.length_singleton] at h h2x
                rcases Nat.lt_or_ge i st.errors.length with hi | hi
                · rw [get_append_lt _ _ _ hi,
                    get_append_lt _ _ _ (show i < st.execs.length by omega)]
                  exact hInv.errors_get i hi _
                · rw [get_append_last _ _ _ (show i = st.errors.length by omega),
                    get_append_last _ _ _ (show i = st.execs.length by omega)]
                  have hin : i + 1 = n + 1 := by omega
                  rw [hin]
              · intro i h
                simp only [List.length_append, List.length_singleton] at h
                rcases Nat.lt_or_ge i st.ctxs.length with hi | hi
                · rw [get_append_lt _ _ _ hi,
                    List.take_append_of_le_length (show i ≤ st.errors.length by omega)]
                  exact hInv.ctx_prev i hi
                · have hie : i = st.ctxs.length := by omega
                  have htake : (st.errors ++ [format_execution_feedback (n + 1) execution]).take i
                      = st.errors := by
                    rw [hie, e_ctxs, ← e_errs]
                    exact List.take_left _ _
                  rw [get_append_last _ _ _ hie, hprev, htake]
              · intro i h
                simp only [List.length_append, List.length_singleton] at h
                rcases Nat.lt_or_ge i st.ctxs.length with hi | hi
                · rw [get_append_lt _ _ _ hi,
                    List.take_append_of_le_length (show i ≤ st.revs.length by omega)]
                  exact hInv.ctx_req i hi
                · have hie : i = st.ctxs.length := by omega
                  have htake : (st.revs ++ [review]).take i = st.revs := by
                    rw [hie, e_ctxs, ← e_revs]
                    exact List.take_left _ _
                  rw [get_append_last _ _ _ hie, hreqv, htake, hie, e_ctxs]
              · intro i h
                simp only [List.length_append, List.length_singleton] at h
                rcases Nat.lt_or_ge i st.artifacts.length with hi | hi
                · rw [get_append_lt _ _ _ hi]
                  exact hInv.art_iter i hi
                · rw [get_append_last _ _ _ (show i = st.artifacts.length by omega)]
                  show n + 1 = i + 1
                  omega
              · intro i h h2x
                dsimp only at h2x
                simp only [List.length_append, List.length_singleton] at h h2x
                rcases Nat.lt_or_ge i st.artifacts.length with hi | hi
                · rw [get_append_lt _ _ _ hi,
                    get_append_lt _ _ _ (show i < st.execs.length by omega)]
                  exact hInv.art_success i hi _
                · rw [get_append_last _ _ _ (show i = st.artifacts.length by omega),
                    get_append_last _ _ _ (show i = st.execs.length by omega)]
                  exact ⟨rfl, rfl⟩
              · intro i h hsucc
                dsimp only at h hsucc
                simp only [List.length_append, List.length_singleton] at h ⊢
                rcases Nat.lt_or_ge i st.execs.length with hi | hi
                · rw [get_append_lt _ _ _ hi] at hsucc
                  rw [hInv.execs_failed i hi] at hsucc
                  cases hsucc
                · omega
            by_cases h5 : cancelsAt o (bump o (bump o (bump o (bump o st.calls))))
            · simp only [if_pos h5]
              exact hfinFG _ _
            · simp only [if_neg h5]
              refine ⟨hfinFG _ _, ?_, ?_, ?_, ?_, ?_, ?_, ?_, ?_⟩
              · simp only [List.length_append, List.length_singleton]
                omega
              · simp only [List.length_append, List.length_singleton]
                omega
              · simp only [List.length_append, List.length_singleton]
                omega
              · simp only [List.length_append, List.length_singleton]
                omega
              · simp only [List.length_append, List.length_singleton]
                omega
              · dsimp only
                rw [hInv.pending_eq, List.any_append]
                simp
              · intro i h
                dsimp only at h ⊢
                simp only [List.length_append, List.length_singleton] at h
                rcases Nat.lt_or_ge i st.execs.length with hi | hi
                · rw [get_append_lt _ _ _ hi]
                  exact hInv.execs_failed i hi
                · rw [get_append_last _ _ _ (show i = st.execs.length by omega)]
                  exact hsf
              · intro f hf c hc
                dsimp only at hc
                simp only [bump, hf] at hc
                simp only [cancelsAt, bump, hf, Bool.not_eq_true] at h1 h2 h3 h4 h5
                rcases Nat.lt_or_ge c st.calls with hcl | hcl
                · exact hInv.calls_clean f hf c hcl
                · have hcc : c = st.calls ∨ c = st.calls + 1 ∨ c = st.calls + 2 ∨
                      c = st.calls + 3 ∨ c = st.calls + 4 := by omega
                  rcases hcc with rfl | rfl | rfl | rfl | rfl
                  · exact h1
                  · exact h2
                  · exact h3
                  · exact h4
                  · exact h5

theorem initState_inv (o : PipelineOracle) (cfg : PipelineConfig) : LoopInv o cfg 0 initState := by
  refine ⟨⟨by decide, by decide, by decide, by decide, by decide, by decide,
    ?_, ?_, ?_, ?_, ?_, ?_⟩, rfl, rfl, rfl, rfl, rfl, rfl, ?_, ?_⟩
  · intro i h h2
    simp [initState] at h
  · intro i h
    simp [initState] at h
  · intro i h
    simp [initState] at h
  · intro i h
    simp [initState] at h
  · intro i h h2
    simp [initState] at h
  · intro i h
    simp [initState] at h
  · intro i h
    simp [initState] at h
  · intro f hf c hc
    simp [initState] at hc

theorem runFrom_inv (o : PipelineOracle) (cfg : PipelineConfig) (requirement : String)
    (assembly_required : Bool) :
    ∀ fuel n st, LoopInv o cfg n st →
      FinalInv cfg (runFrom o cfg requirement assembly_required fuel (n + 1) st).2 ∧
      ((runFrom o cfg requirement assembly_required fuel (n + 1) st).1 = false →
        CallsClean o (runFrom o cfg requirement assembly_required fuel (n + 1) st).2) := by
  intro fuel
  induction fuel with
  | zero =>
    intro n st hInv
    exact ⟨hInv.toFinalInv, fun _ => hInv.calls_clean⟩
  | succ fuel ih =>
    intro n st hInv
    have hstep := runStep_inv o cfg requirement assembly_required n st hInv
    rcases hrs : runStep o cfg requirement assembly_required (n + 1) st with st2 | st2 | st2
    · have heq : runFrom o cfg requirement assembly_required (fuel + 1) (n + 1) st
          = (true, st2) := by
        simp [runFrom, hrs]
      rw [hrs] at hstep
      rw [heq]
      exact ⟨hstep, by intro hx; cases hx⟩
    · have heq : runFrom o cfg requirement assembly_required (fuel + 1) (n + 1) st
          = (false, st2) := by
        simp [runFrom, hrs]
      rw [hrs] at hstep
      rw [heq]
      exact ⟨hstep.1, fun _ => hstep.2⟩
    · have heq : runFrom o cfg requirement assembly_required (fuel + 1) (n + 1) st
          = runFrom o cfg requirement assembly_required fuel (n + 1 + 1) st2 := by
        simp [runFrom, hrs]
      rw [hrs] at hstep
      rw [heq]
      exact ih (n + 1) st2 hstep

theorem runTrace_inv (o : PipelineOracle) (cfg : PipelineConfig) (requirement : String) :
    FinalInv cfg (runTrace o cfg requirement).2 ∧
    ((runTrace o cfg requirement).1 = false → CallsClean o (runTrace o cfg requirement).2) := by
  have h := runFrom_inv o cfg requirement (require_assembly requirement)
    cfg.max_iterations 0 initState (initState_inv o cfg)
  simpa [runTrace] using h

theorem scan_for_errors_traceback (log_lines : List String)
    (h : strContains (pyJoin "\n" log_lines) "Traceback" = true) :
    scan_for_errors log_lines = some "FreeCAD reported a traceback" := by
  unfold scan_for_errors
  simp [h]

theorem simulate_execution_script_path (script_body script_path : String) :
    (simulate_execution script_body script_path).script_path = script_path := by
  unfold simulate_execution
  by_cases h : strContains script_body "raise" = true <;> simp [h]

theorem run_with_freecad_completed (proc : String → String → String → ProcResult)
    (exe : String) (fs : FS) (script_path : String) (rc : Int) (stdout stderr : String)
    (logWrite : Option String)
    (h : proc exe (logPathOf script_path) script_path =
      ProcResult.completed rc stdout stderr logWrite) :
    ∃ logLines,
      (run_with_freecad proc exe fs script_path).2.1 =
        ⟨(if rc ≠ 0 then some ("FreeCAD exited with code " ++ toString rc)
          else scan_for_errors (pySplitlines stdout ++ pySplitlines stderr ++ logLines)).isNone,
         script_path,
         pySplitlines stdout ++ pySplitlines stderr ++ logLines,
         if rc ≠ 0 then some ("FreeCAD exited with code " ++ toString rc)
         else scan_for_errors (pySplitlines stdout ++ pySplitlines stderr ++ logLines),
         []⟩ := by
  simp only [run_with_freecad, h]
  exact ⟨_, rfl⟩

/-- C3: for an out-of-process execution that completes normally, a non-zero
exit code yields a failure with an exit-code error; on a zero exit code the
combined output log (stdout lines, then stderr lines, then log-file lines)
is scanned for markers, and a combined output containing "Traceback" yields
success = false with the traceback error message, the "Traceback" marker
taking precedence over the generic markers. -/
theorem C3_zero_exit_traceback_scan (proc : String → String → String → ProcResult)
    (exe : String) (fs : FS) (script_path : String) (rc : Int) (stdout stderr : String)
    (logWrite : Option String)
    (h : proc exe (logPathOf script_path) script_path =
      ProcResult.completed rc stdout stderr logWrite) :
    (rc ≠ 0 →
      (run_with_freecad proc exe fs script_path).2.1.success = false ∧
      (run_with_freecad proc exe fs script_path).2.1.error =
        some ("FreeCAD exited with code " ++ toString rc)) ∧
    (rc = 0 →
      (∃ logLines,
        (run_with_freecad proc exe fs script_path).2.1.output_log =
          pySplitlines stdout ++ pySplitlines stderr ++ logLines) ∧
      (run_with_freecad proc exe fs script_path).2.1.error =
        scan_for_errors (run_with_freecad proc exe fs script_path).2.1.output_log ∧
      (strContains (pyJoin "\n" (run_with_freecad proc exe fs script_path).2.1.output_log)
          "Traceback" = true →
        (run_with_freecad proc exe fs script_path).2.1.success = false ∧
        (run_with_freecad proc exe fs script_path).2.1.error =
          some "FreeCAD reported a traceback")) := by
  obtain ⟨logLines, hr⟩ :=
    run_with_freecad_completed proc exe fs script_path rc stdout stderr logWrite h
  rw [hr]
  constructor
  · intro hrc
    simp [hrc]
  · intro hrc
    subst hrc
    have hz : (if (0 : Int) ≠ 0 then some ("FreeCAD exited with code " ++ toString (0 : Int))
        else scan_for_errors (pySplitlines stdout ++ pySplitlines stderr ++ logLines)) =
        scan_for_errors (pySplitlines stdout ++ pySplitlines stderr ++ logLines) := by
      norm_num
    rw [hz]
    dsimp only
    refine ⟨⟨logLines, rfl⟩, rfl, ?_⟩
    intro htr
    rw [scan_for_errors_traceback _ htr]
    exact ⟨rfl, rfl⟩

/-- C4: the simulation strategy fails exactly when the script body contains
the textual "raise" sentinel; otherwise it succeeds with a synthesized log
of at least two lines including the simulated-success marker, and its
verdict is a pure function of the script body and path. -/
theorem C4_simulation_verdict (script_body script_path : String) :
    ((simulate_execution script_body script_path).success = false ↔
      strContains script_body "raise" = true) ∧
    (strContains script_body "raise" = false →
      (simulate_execution script_body script_path).success = true ∧
      2 ≤ (simulate_execution script_body script_path).output_log.length ∧
      "[simulated] FreeCAD finished successfully" ∈
        (simulate_execution script_body script_path).output_log) ∧
    simulate_execution script_body script_path = simulate_execution script_body script_path := by
  unfold simulate_execution
  by_cases h : strContains script_body "raise" = true
  · simp [h]
  · have hf : strContains script_body "raise" = false := by simpa using h
    simp [hf]

/-- C6: when the host executable disappears at invocation time (the process
launch raises FileNotFoundError), run_script drops the cached executable
reference and returns the simulation of the already-persisted script body
instead of raising. -/
theorem C6_executable_vanished_falls_back (e : Engine) (fs : FS) (script_body : String)
    (iteration : Nat) (exe : String) (hemb : e.embedded = none) (hexe : e.executable = some exe)
    (hproc : e.proc exe (logPathOf (scriptPathOf e.workspace iteration))
        (scriptPathOf e.workspace iteration) = ProcResult.fileNotFound) :
    run_script e fs script_body iteration =
      (fsWrite fs (scriptPathOf e.workspace iteration) script_body,
       simulate_execution script_body (scriptPathOf e.workspace iteration),
       { e with executable := none }) := by
  simp only [run_script, run_with_freecad, hemb, hexe, hproc]
  simp [fsWrite]

/-- C9: under every strategy, run_script writes the script body to the
deterministic path workspace/iteration_N.py, the written file still holds
the body when run_script returns, and the result names that path as its
script path. -/
theorem C9_script_persisted (e : Engine) (fs : FS) (script_body : String) (iteration : Nat) :
    (run_script e fs script_body iteration).1 (scriptPathOf e.workspace iteration) =
      some script_body ∧
    (run_script e fs script_body iteration).2.1.script_path =
      scriptPathOf e.workspace iteration := by
  cases hemb : e.embedded with
  | some pyExec =>
    simp only [run_script, hemb]
    refine ⟨by simp [fsWrite], ?_⟩
    unfold embedded_execute
    cases hx : pyExec script_body (scriptPathOf e.workspace iteration) <;> simp
  | none =>
    cases hexe : e.executable with
    | none =>
      simp only [run_script, hemb, hexe]
      exact ⟨by simp [fsWrite], simulate_execution_script_path _ _⟩
    | some exe =>
      simp only [run_script, hemb, hexe, run_with_freecad]
      cases hp : e.proc exe (logPathOf (scriptPathOf e.workspace iteration))
          (scriptPathOf e.workspace iteration) with
      | timeout =>
        simp only [hp]
        exact ⟨by simp [fsWrite], by trivial⟩
      | fileNotFound =>
        simp only [hp]
        exact ⟨by simp [fsWrite], simulate_execution_script_path _ _⟩
      | completed rc stdout stderr logWrite =>
        simp only [hp]
        cases logWrite with
        | none => exact ⟨by simp [fsWrite], by trivial⟩
        | some c =>
          refine ⟨?_, by trivial⟩
          have hne : scriptPathOf e.workspace iteration ≠
              logPathOf (scriptPathOf e.workspace iteration) :=
            Ne.symm (logPathOf_ne _)
          simp [fsWrite, hne]

theorem format_lines_head (iteration : Nat) (ex : ScriptExecutionResult) :
    (format_execution_feedback_lines iteration ex).head? =
      some ("Iteration " ++ toString iteration ++ " FreeCAD execution failed.") := by
  unfold format_execution_feedback_lines
  by_cases he : optTruthy ex.error <;> by_cases ho : ex.output_log.isEmpty <;> simp [he, ho]

theorem fmt_error_mem (iteration : Nat) (ex : ScriptExecutionResult) (e : String)
    (he : ex.error = some e) (hne : e ≠ "") :
    ("Error: " ++ e) ∈ format_execution_feedback_lines iteration ex := by
  have hts : optTruthy (some e) = true := by simp [optTruthy, hne]
  unfold format_execution_feedback_lines
  by_cases ho : ex.output_log.isEmpty <;> simp [he, hts, ho]

theorem fmt_line_mem (iteration : Nat) (ex : ScriptExecutionResult)
    (h : ex.output_log ≠ []) :
    ∃ line ∈ ex.output_log, line ∈ format_execution_feedback_lines iteration ex := by
  have ho : ex.output_log.isEmpty = false := by simp [h]
  have htl : ∃ line ∈ ex.output_log, line ∈ tail_lines ex.output_log 40 := by
    unfold tail_lines
    by_cases hlen : ex.output_log.length ≤ 40
    · simp only [if_pos hlen]
      exact ⟨ex.output_log.getLast h, List.getLast_mem h, List.getLast_mem h⟩
    · simp only [if_neg hlen]
      have hdl : 0 < (ex.output_log.drop (ex.output_log.length - 40)).length := by
        simp only [List.length_drop]
        omega
      obtain ⟨x, hx⟩ := List.exists_mem_of_length_pos hdl
      exact ⟨x, List.drop_subset _ _ hx, List.mem_cons_of_mem _ hx⟩
  obtain ⟨line, hmem, htail⟩ := htl
  refine ⟨line, hmem, ?_⟩
  unfold format_execution_feedback_lines
  by_cases he : optTruthy ex.error <;> simp [he, ho, htail]

theorem fmt_contains_error (iteration : Nat) (ex : ScriptExecutionResult) (e : String)
    (he : ex.error = some e) (hne : e ≠ "") :
    strContains (format_execution_feedback iteration ex) e = true := by
  have h1 : strContains (format_execution_feedback iteration ex) ("Error: " ++ e) = true :=
    strContains_pyJoin_of_mem _ _ _ (fmt_error_mem iteration ex e he hne)
  exact strContains_trans _ _ _ h1 (strContains_append_right _ _ _ (strContains_refl e))

theorem fmt_contains_line (iteration : Nat) (ex : ScriptExecutionResult)
    (h : ex.output_log ≠ []) :
    ∃ line ∈ ex.output_log,
      strContains (format_execution_feedback iteration ex) line = true := by
  obtain ⟨line, hmem, hlmem⟩ := fmt_line_mem iteration ex h
  exact ⟨line, hmem, strContains_pyJoin_of_mem _ _ _ hlmem⟩

/-- C7 counterexample: the feedback block for iteration 2 does not begin
with the line "Iteration 2 execution failed." (neither as its first line nor
as a leading segment of the joined text): the code writes
"Iteration 2 FreeCAD execution failed." instead. -/
theorem C7_counterexample :
    ¬ ((format_execution_feedback_lines 2 exC7).head? =
        some "Iteration 2 execution failed.") ∧
    listIsPre "Iteration 2 execution failed.".data
      (format_execution_feedback 2 exC7).data = false := by
  constructor
  · decide
  · decide

/-- C7 amended: the feedback block for failed iteration N is the newline
join of a line list that begins with "Iteration N FreeCAD execution
failed.", is exactly that header plus the explicit no-output note when
neither a truthy error nor output lines were captured, and otherwise
consists of the header, the error summary when the error is truthy, and,
when output exists, a "Recent FreeCAD output:" line followed by the most
recent output lines capped at 40, a truncated tail being prefixed by a line
counting the omitted earlier lines. -/
theorem C7_feedback_block_shape (iteration : Nat) (ex : ScriptExecutionResult) :
    format_execution_feedback iteration ex =
      pyJoin "\n" (format_execution_feedback_lines iteration ex) ∧
    (format_execution_feedback_lines iteration ex).head? =
      some ("Iteration " ++ toString iteration ++ " FreeCAD execution failed.") ∧
    (optTruthy ex.error = false ∧ ex.output_log = [] →
      format_execution_feedback_lines iteration ex =
        ["Iteration " ++ toString iteration ++ " FreeCAD execution failed.",
         "No output was captured before the failure."]) ∧
    (optTruthy ex.error = true ∨ ex.output_log ≠ [] →
      format_execution_feedback_lines iteration ex =
        (if optTruthy ex.error
         then ["Iteration " ++ toString iteration ++ " FreeCAD execution failed.",
               "Error: " ++ ex.error.getD ""]
         else ["Iteration " ++ toString iteration ++ " FreeCAD execution failed."]) ++
        (if ex.output_log.isEmpty then []
         else "Recent FreeCAD output:" :: tail_lines ex.output_log 40)) ∧
    (ex.output_log.length ≤ 40 → tail_lines ex.output_log 40 = ex.output_log) ∧
    (40 < ex.output_log.length →
      tail_lines ex.output_log 40 =
        ("... truncated " ++ toString (ex.output_log.length - 40) ++ " earlier lines ...")
          :: ex.output_log.drop (ex.output_log.length - 40)) := by
  refine ⟨rfl, format_lines_head iteration ex, ?_, ?_, ?_, ?_⟩
  · rintro ⟨he, ho⟩
    unfold format_execution_feedback_lines
    simp [he, ho]
  · intro hcase
    unfold format_execution_feedback_lines
    by_cases he : optTruthy ex.error <;> by_cases ho : ex.output_log.isEmpty
    · simp [he, ho]
    · simp [he, ho]
    · rcases hcase with hce | hco
      · exact absurd hce he
      · rw [List.isEmpty_iff] at ho
        exact absurd ho hco
    · simp [he, ho]
  · intro hlen
    unfold tail_lines
    simp [hlen]
  · intro hlen
    unfold tail_lines
    simp [Nat.not_le.mpr hlen]

/-- C8: an exception from the LLM call during the review step is caught and
turned into a RenderReview whose feedback names the failure and whose
needs_additional_views is false; and two oracles that agree on everything
except the review collaborators (complete and jsonLoads) drive one loop
body to the same outcome kind, the same executions, the same running error
list and the same artifact iteration/success/error data. -/
theorem C8_review_exception_downgraded :
    (∀ (o : PipelineOracle) (requirement : String) (iteration : Nat)
        (renders : List RenderResult) (success : Bool) (exc : String),
      renders ≠ [] →
      o.complete (reviewMessages requirement iteration success)
          (renders.map (fun r => r.image_path)) = .error exc →
      review_renders o requirement iteration renders success =
        ⟨"Render review failed: " ++ exc, false⟩) ∧
    (∀ (o o2 : PipelineOracle) (cfg : PipelineConfig) (requirement : String)
        (assembly_required : Bool) (iteration : Nat) (st : LoopState),
      o.generate = o2.generate → o.runScript = o2.runScript → o.render = o2.render →
      o.cancelled = o2.cancelled →
      (runStep o cfg requirement assembly_required iteration st).kind =
        (runStep o2 cfg requirement assembly_required iteration st).kind ∧
      (runStep o cfg requirement assembly_required iteration st).state.execs =
        (runStep o2 cfg requirement assembly_required iteration st).state.execs ∧
      (runStep o cfg requirement assembly_required iteration st).state.errors =
        (runStep o2 cfg requirement assembly_required iteration st).state.errors ∧
      (runStep o cfg requirement assembly_required iteration st).state.artifacts.map
          (fun a => (a.iteration, a.success, a.error)) =
        (runStep o2 cfg requirement assembly_required iteration st).state.artifacts.map
          (fun a => (a.iteration, a.success, a.error))) := by
  constructor
  · intro o requirement iteration renders success exc hne hcomp
    have himg : (renders.map (fun r => r.image_path)).isEmpty = false := by
      cases renders with
      | nil => exact absurd rfl hne
      | cons r rs => rfl
    unfold review_renders
    simp [himg, hcomp]
  · intro o o2 cfg requirement assembly_required iteration st hg hrs hrd hcn
    have hcan : cancelsAt o = cancelsAt o2 := by
      funext c
      unfold cancelsAt
      rw [hcn]
    have hbump : bump o = bump o2 := by
      funext c
      unfold bump
      rw [hcn]
    simp only [runStep]
    rw [hg, hrs, hrd, hcan, hbump]
    generalize mkContext cfg requirement assembly_required st = context
    generalize o2.generate context = script
    generalize o2.runScript script iteration = execution
    generalize o2.render requirement iteration = renders
    generalize review_renders o requirement iteration renders execution.success = rev1
    generalize review_renders o2 requirement iteration renders execution.success = rev2
    by_cases h1 : cancelsAt o2 st.calls
    · simp [h1]
    · simp only [if_neg h1]
      by_cases h2 : cancelsAt o2 (bump o2 st.calls)
      · simp [h2]
      · simp only [if_neg h2]
        by_cases h3 : cancelsAt o2 (bump o2 (bump o2 st.calls))
        · simp [h3]
        · simp only [if_neg h3]
          by_cases h4 : cancelsAt o2 (bump o2 (bump o2 (bump o2 st.calls)))
          · simp [h4]
          · simp only [if_neg h4]
            by_cases hs : execution.success = true
            · simp only [if_pos hs]
              refine ⟨rfl, rfl, rfl, ?_⟩
              dsimp only [StepResult.state]
              simp [List.map_append]
            · simp only [if_neg hs]
              by_cases h5 : cancelsAt o2 (bump o2 (bump o2 (bump o2 (bump o2 st.calls))))
              · simp only [if_pos h5]
                refine ⟨rfl, rfl, rfl, ?_⟩
                dsimp only [StepResult.state]
                simp [List.map_append]
              · simp only [if_neg h5]
                refine ⟨rfl, rfl, rfl, ?_⟩
                dsimp only [StepResult.state]
                simp [List.map_append]

theorem take_succ_get (l : List α) (k : Nat) (h : k < l.length) :
    l.take (k + 1) = l.take k ++ [l.get ⟨k, h⟩] := by
  rw [List.take_succ]
  simp [List.getElem?_eq_getElem h]

/-- C1: whenever iteration k+1 of a run is started after iteration k failed,
the context handed to the generator at iteration k+1 extends the previous
context by exactly the iteration-k feedback block (entries are only ever
appended), that block is one of its previous_errors entries, and the block
contains the literal error text and at least one output log line of the
failed execution (when an error and output were captured). -/
theorem C1_feedback_propagation (o : PipelineOracle) (cfg : PipelineConfig)
    (requirement : String) (k : Nat)
    (hc : k + 1 < (runTrace o cfg requirement).2.ctxs.length)
    (he : k < (runTrace o cfg requirement).2.execs.length)
    (_hfail : ((runTrace o cfg requirement).2.execs.get ⟨k, he⟩).success = false) :
    ((runTrace o cfg requirement).2.ctxs.get ⟨k + 1, hc⟩).previous_errors =
      ((runTrace o cfg requirement).2.ctxs.get ⟨k, Nat.lt_of_succ_lt hc⟩).previous_errors ++
        [format_execution_feedback (k + 1) ((runTrace o cfg requirement).2.execs.get ⟨k, he⟩)] ∧
    format_execution_feedback (k + 1) ((runTrace o cfg requirement).2.execs.get ⟨k, he⟩) ∈
      ((runTrace o cfg requirement).2.ctxs.get ⟨k + 1, hc⟩).previous_errors ∧
    (∀ e, ((runTrace o cfg requirement).2.execs.get ⟨k, he⟩).error = some e → e ≠ "" →
      strContains (format_execution_feedback (k + 1)
        ((runTrace o cfg requirement).2.execs.get ⟨k, he⟩)) e = true) ∧
    (((runTrace o cfg requirement).2.execs.get ⟨k, he⟩).output_log ≠ [] →
      ∃ line ∈ ((runTrace o cfg requirement).2.execs.get ⟨k, he⟩).output_log,
        strContains (format_execution_feedback (k + 1)
          ((runTrace o cfg requirement).2.execs.get ⟨k, he⟩)) line = true) := by
  have hfin := (runTrace_inv o cfg requirement).1
  have hkerr : k < (runTrace o cfg requirement).2.errors.length := by
    have := hfin.ctxs_le_errors
    omega
  refine ⟨?_, ?_, ?_, ?_⟩
  · rw [hfin.ctx_prev (k + 1) hc, hfin.ctx_prev k (Nat.lt_of_succ_lt hc),
      take_succ_get _ k hkerr, hfin.errors_get k hkerr he]
  · rw [hfin.ctx_prev (k + 1) hc, take_succ_get _ k hkerr, hfin.errors_get k hkerr he]
    exact List.mem_append_right _ (List.mem_singleton.mpr rfl)
  · intro e hee hne
    exact fmt_contains_error _ _ e hee hne
  · intro hlog
    exact fmt_contains_line _ _ hlog

/-- C2: once the review recorded at trace position k reports
needs_additional_views, every context generated at a later position of the
same run requests additional views, whatever later executions and reviews
did. -/
theorem C2_sticky_additional_views (o : PipelineOracle) (cfg : PipelineConfig)
    (requirement : String) (k j : Nat)
    (hk : k < (runTrace o cfg requirement).2.revs.length)
    (hneeds : ((runTrace o cfg requirement).2.revs.get ⟨k, hk⟩).needs_additional_views = true)
    (hkj : k < j) (hj : j < (runTrace o cfg requirement).2.ctxs.length) :
    ((runTrace o cfg requirement).2.ctxs.get ⟨j, hj⟩).request_additional_views = true := by
  have hfin := (runTrace_inv o cfg requirement).1
  rw [hfin.ctx_req j hj]
  have h2 : k < (((runTrace o cfg requirement).2.revs.take j)).length := by
    simp only [List.length_take]
    omega
  have h3 : ((runTrace o cfg requirement).2.revs.take j).get ⟨k, h2⟩ =
      (runTrace o cfg requirement).2.revs.get ⟨k, hk⟩ := by
    simp [List.get_eq_getElem, List.getElem_take]
  have hmem : (runTrace o cfg requirement).2.revs.get ⟨k, hk⟩ ∈
      (runTrace o cfg requirement).2.revs.take j := by
    rw [← h3]
    exact List.get_mem _ _ _
  have hany : ((runTrace o cfg requirement).2.revs.take j).any
      (fun r => r.needs_additional_views) = true :=
    List.any_eq_true.mpr ⟨_, hmem, hneeds⟩
  rw [hany, Bool.or_true]

/-- C10: a report returned normally by run numbers its artifacts 1, 2, ...
in order with no gaps, contains at most one successful artifact, and a
successful artifact can only be the last one. -/
theorem C10_report_artifact_shape (o : PipelineOracle) (cfg : PipelineConfig)
    (requirement : String) (report : PipelineReport)
    (h : run o cfg requirement = Except.ok report) :
    (∀ i (hi : i < report.artifacts.length),
      (report.artifacts.get ⟨i, hi⟩).iteration = i + 1) ∧
    (∀ i j (hi : i < report.artifacts.length) (hj : j < report.artifacts.length),
      (report.artifacts.get ⟨i, hi⟩).success = true →
      (report.artifacts.get ⟨j, hj⟩).success = true → i = j) ∧
    (∀ i (hi : i < report.artifacts.length),
      (report.artifacts.get ⟨i, hi⟩).success = true → i + 1 = report.artifacts.length) := by
  have hfin := (runTrace_inv o cfg requirement).1
  unfold run at h
  rcases hrt : runTrace o cfg requirement with ⟨b, st⟩
  rw [hrt] at h hfin
  cases b with
  | true =>
    have h3 : (Except.error "Pipeline run was cancelled" : Except String PipelineReport) =
        Except.ok report := h
    exact Except.noConfusion h3
  | false =>
    have hfin2 : FinalInv cfg st := hfin
    have h3 : (Except.ok { requirement := requirement, artifacts := st.artifacts } :
        Except String PipelineReport) = Except.ok report := h
    have h2 : ({ requirement := requirement, artifacts := st.artifacts } :
        PipelineReport) = report := by
      injection h3
    subst h2
    have hlast : ∀ i (hi : i < st.artifacts.length),
        (st.artifacts.get ⟨i, hi⟩).success = true → i + 1 = st.artifacts.length := by
      intro i hi hsucc
      have hae := hfin2.arts_eq_revs
      have hre := hfin2.revs_le_execs
      have hie : i < st.execs.length := by omega
      have hes := (hfin2.art_success i hi hie).1
      rw [hes] at hsucc
      have hl := hfin2.exec_success_last i hie hsucc
      omega
    refine ⟨?_, ?_, ?_⟩
    · intro i hi
      exact hfin2.art_iter i hi
    · intro i j hi hj hsi hsj
      have hli := hlast i hi hsi
      have hlj := hlast j hj hsj
      omega
    · intro i hi
      exact hlast i hi

/-- C5: a run with a cancellation predicate that is false at the first
checkpoint and true at the second (immediately after the first generation
call) raises the PipelineCancelledError message and appends no artifact at
all; and any run that returns without raising never observed a true
cancellation answer at any of its checkpoints. -/
theorem C5_cancellation_raises (o : PipelineOracle) (cfg : PipelineConfig)
    (requirement : String) (f : Nat → Bool) (hc : o.cancelled = some f) :
    (1 ≤ cfg.max_iterations → f 0 = false → f 1 = true →
      run o cfg requirement = Except.error "Pipeline run was cancelled" ∧
      (runTrace o cfg requirement).2.artifacts = []) ∧
    ((runTrace o cfg requirement).1 = false →
      ∀ c, c < (runTrace o cfg requirement).2.calls → f c = false) := by
  constructor
  · intro hM h0 h1
    obtain ⟨m, hm⟩ : ∃ m, cfg.max_iterations = m + 1 := ⟨cfg.max_iterations - 1, by omega⟩
    have hc0 : cancelsAt o initState.calls = false := by
      simp [initState, cancelsAt, hc, h0]
    have hc1 : cancelsAt o (bump o initState.calls) = true := by
      simp [initState, cancelsAt, bump, hc, h1]
    have hc0z : cancelsAt o 0 = false := by
      simp [cancelsAt, hc, h0]
    have hc1z : cancelsAt o (bump o 0) = true := by
      simp [cancelsAt, bump, hc, h1]
    constructor
    · unfold run runTrace
      rw [hm]
      simp only [runFrom]
      simp [runStep, hc0, hc1, hc0z, hc1z]
    · unfold runTrace
      rw [hm]
      simp only [runFrom]
      simp [runStep, hc0, hc1, hc0z, hc1z, initState]
  · intro hfalse c hcc
    exact (runTrace_inv o cfg requirement).2 hfalse f hc c hcc

theorem C1_feedback_propagation_witness :
    0 + 1 < (runTrace oC1 cfgC1 "box").2.ctxs.length ∧
    ((runTrace oC1 cfgC1 "box").2.ctxs.get ⟨0 + 1, by decide⟩).previous_errors =
      ((runTrace oC1 cfgC1 "box").2.ctxs.get ⟨0, by decide⟩).previous_errors ++
        [format_execution_feedback (0 + 1) ((runTrace oC1 cfgC1 "box").2.execs.get ⟨0, by decide⟩)] :=
  ⟨by decide,
    (C1_feedback_propagation oC1 cfgC1 "box" 0 (by decide) (by decide) (by decide)).1⟩

theorem C2_sticky_additional_views_witness :
    0 < (runTrace oC2 cfgC2 "box").2.revs.length ∧
    ((runTrace oC2 cfgC2 "box").2.ctxs.get ⟨1, by decide⟩).request_additional_views = true :=
  ⟨by decide,
    C2_sticky_additional_views oC2 cfgC2 "box" 0 1 (by decide) (by decide) (by decide) (by decide)⟩

theorem C3_zero_exit_traceback_scan_witness :
    procC3 "fc" (logPathOf "w/iteration_1.py") "w/iteration_1.py" =
      ProcResult.completed 0 "ok\nTraceback (most recent call last):" "" none ∧
    (run_with_freecad procC3 "fc" fsC3 "w/iteration_1.py").2.1.success = false ∧
    (run_with_freecad procC3 "fc" fsC3 "w/iteration_1.py").2.1.error =
      some "FreeCAD reported a traceback" :=
  ⟨rfl,
    ((C3_zero_exit_traceback_scan procC3 "fc" fsC3 "w/iteration_1.py" 0
      "ok\nTraceback (most recent call last):" "" none rfl).2 rfl).2.2 (by decide)⟩

theorem C4_simulation_verdict_witness :
    strContains "print(1)" "raise" = false ∧
    (simulate_execution "print(1)" "w/iteration_1.py").success = true ∧
    2 ≤ (simulate_execution "print(1)" "w/iteration_1.py").output_log.length :=
  ⟨by decide,
    ((C4_simulation_verdict "print(1)" "w/iteration_1.py").2.1 (by decide)).1,
    ((C4_simulation_verdict "print(1)" "w/iteration_1.py").2.1 (by decide)).2.1⟩

theorem C5_cancellation_raises_witness :
    oC5.cancelled = some (fun k => decide (1 ≤ k)) ∧
    run oC5 cfgC5 "box" = Except.error "Pipeline run was cancelled" ∧
    (runTrace oC5 cfgC5 "box").2.artifacts = [] :=
  ⟨rfl,
    ((C5_cancellation_raises oC5 cfgC5 "box" (fun k => decide (1 ≤ k)) rfl).1
      (by decide) (by decide) (by decide)).1,
    ((C5_cancellation_raises oC5 cfgC5 "box" (fun k => decide (1 ≤ k)) rfl).1
      (by decide) (by decide) (by decide)).2⟩

theorem C6_executable_vanished_falls_back_witness :
    engC6.embedded = none ∧ engC6.executable = some "fc" ∧
    run_script engC6 fsC6 "print(1)" 1 =
      (fsWrite fsC6 (scriptPathOf engC6.workspace 1) "print(1)",
       simulate_execution "print(1)" (scriptPathOf engC6.workspace 1),
       { engC6 with executable := none }) :=
  ⟨rfl, rfl, C6_executable_vanished_falls_back engC6 fsC6 "print(1)" 1 "fc" rfl rfl rfl⟩

theorem C7_feedback_block_shape_witness :
    exC7.output_log.length ≤ 40 ∧ tail_lines exC7.output_log 40 = exC7.output_log :=
  ⟨by decide, (C7_feedback_block_shape 2 exC7).2.2.2.2.1 (by decide)⟩

theorem C8_review_exception_downgraded_witness :
    ([⟨"isometric", "img.png"⟩] : List RenderResult) ≠ [] ∧
    review_renders oC8 "req" 1 [⟨"isometric", "img.png"⟩] true =
      ⟨"Render review failed: boom", false⟩ :=
  ⟨by decide,
    C8_review_exception_downgraded.1 oC8 "req" 1 [⟨"isometric", "img.png"⟩] true "boom"
      (by decide) rfl⟩

theorem C10_report_artifact_shape_witness :
    run oC10 cfgC10 "box" = Except.ok repC10 ∧
    (repC10.artifacts.get ⟨0, by decide⟩).iteration = 0 + 1 :=
  ⟨by rfl,
    (C10_report_artifact_shape oC10 cfgC10 "box" repC10 (by rfl)).1 0 (by decide)⟩

end FreecadAgent

